import Mathlib

/-!
Verification of the EAST text-detection pipeline of this repository
(src/services/tesseractUtils.py and src/main.py) against its
natural-language specification.

The numeric model uses exact rationals for the floating-point values of the
source; Python int() is truncation toward zero; fallible Python code
(statements that can raise) is modelled with Option, none standing for an
exception escaping the function.
-/

namespace PyOCR

/-- A RawBox: integer (startX, startY, endX, endY) in detector-grid pixel
coordinates, as built by geometryCalculations. -/
abbrev Box : Type := ℤ × ℤ × ℤ × ℤ

/-- Python int() applied to a numeric value: truncation toward zero. -/
def pyInt (q : ℚ) : ℤ := if q < 0 then ⌈q⌉ else ⌊q⌋

/-- An in-memory image: its dimensions together with pixel lookup
(row index first, as in numpy). -/
structure Image (α : Type) where
  height : ℕ
  width : ℕ
  pix : ℕ → ℕ → α

/-- numpy basic-slice endpoint resolution on an axis of length n: a
nonnegative endpoint is clamped above by n, a negative endpoint counts from
the end of the axis (clamped below by 0). -/
def pySliceIdx (n : ℕ) (i : ℤ) : ℕ :=
  if i < 0 then (max (i + n) 0).toNat else min i.toNat n

/-- The 2-D slice img[y0:y1, x0:x1] of numpy arrays
(line 181 of tesseractUtils.py). -/
def pyCrop {α : Type} (img : Image α) (y0 y1 x0 x1 : ℤ) : Image α :=
  let sy := pySliceIdx img.height y0
  let ey := pySliceIdx img.height y1
  let sx := pySliceIdx img.width x0
  let ex := pySliceIdx img.width x1
  ⟨ey - sy, ex - sx, fun i j => img.pix (sy + i) (sx + j)⟩

/-- A BGR colour triple as passed to cv2. -/
abbrev Color : Type := ℕ × ℕ × ℕ

/-- The arguments of one cv2.rectangle call. -/
structure RectCall where
  p1 : ℤ × ℤ
  p2 : ℤ × ℤ
  color : Color
  thickness : ℕ
deriving DecidableEq, Repr

/-- An image buffer as the OpenCV drawing calls see it: the pixel data
together with the record of the rectangles cv2.rectangle has painted onto
it in place.  cv2.rectangle is an external library routine; its in-place
painting is modelled by recording the draw call on the buffer, which is
what the claims about mutation of the buffer observe. -/
structure Canvas (α : Type) where
  img : Image α
  drawnRects : List RectCall

/-- cv2.rectangle(img, p1, p2, color, thickness): paints a rectangle
outline onto the buffer in place (line 182 of tesseractUtils.py). -/
def cvRectangle {α : Type} (c : Canvas α) (p1 p2 : ℤ × ℤ) (color : Color)
    (thickness : ℕ) : Canvas α :=
  ⟨c.img, c.drawnRects ++ [⟨p1, p2, color, thickness⟩]⟩

/-- cv2 interpolation modes used by the repository. -/
inductive Interp where
  | cubic
  | linear
deriving DecidableEq, Repr

/-- The result of cv2.resize(src, None, fx, fy, interpolation): the source
pixels together with the requested axis factors and interpolation mode (the
resampled pixel values themselves are floating-point library internals). -/
structure Resized (α : Type) where
  src : Image α
  fx : ℚ
  fy : ℚ
  interpolation : Interp

/-- cv2.resize with scale factors.  OpenCV rejects an empty source image
(cv2.error from the assertion that the source size is nonempty), modelled
as none. -/
def cvResize {α : Type} (src : Image α) (fx fy : ℚ) (ip : Interp) :
    Option (Resized α) :=
  if src.height = 0 ∨ src.width = 0 then none else some ⟨src, fx, fy, ip⟩

/-- geometryData (line 188 of tesseractUtils.py): the five per-row planes
of the geometry tensor, returned as (angleData, xData0, xData1, xData2,
xData3).  The tensor geometry c y x is channel c at row y, column x (the
leading batch index of the source is dropped). -/
def geometryData (geometry : ℕ → ℕ → ℕ → ℚ) (y : ℕ) :
    (ℕ → ℚ) × (ℕ → ℚ) × (ℕ → ℚ) × (ℕ → ℚ) × (ℕ → ℚ) :=
  (geometry 4 y, geometry 0 y, geometry 1 y, geometry 2 y, geometry 3 y)

/-- geometryCalculations (line 207 of tesseractUtils.py).  np.cos and
np.sin are the library floating-point cosine and sine; they are carried as
explicit function parameters cosf and sinf of the model, and facts such as
cosf 0 = 1 and sinf 0 = 0 (true of the IEEE implementations) are stated as
hypotheses where a claim needs them. -/
def geometryCalculations (cosf sinf : ℚ → ℚ)
    (angleData xData0 xData1 xData2 xData3 : ℕ → ℚ) (x y : ℕ) : Box :=
  let offsetX : ℚ := (x : ℚ) * 4
  let offsetY : ℚ := (y : ℚ) * 4
  let angle := angleData x
  let c := cosf angle
  let s := sinf angle
  let h := xData0 x + xData2 x
  let w := xData1 x + xData3 x
  let endX := pyInt (offsetX + c * xData1 x + s * xData2 x)
  let endY := pyInt (offsetY - s * xData1 x + c * xData2 x)
  let startX := pyInt ((endX : ℚ) - w)
  let startY := pyInt ((endY : ℚ) - h)
  (startX, startY, endX, endY)

/-- The accumulation state of generateTextBoundingBoxes: the trust list and
the boxs list being appended to, together with the most recently assigned
(startX, startY, endX, endY) — none while those local names are unbound. -/
abbrev CollectState : Type := List ℚ × List Box × Option Box

/-- The body of the inner loop of generateTextBoundingBoxes
(lines 141-146 of tesseractUtils.py) at cell (y, x): skip the cell when its
score is below minimumTrust, otherwise compute the box and append score and
box.  dataScores x is scores y x; the per-row bindings of the source
(dataScores, geometryData) are inlined here. -/
def cellStep (cosf sinf : ℚ → ℚ) (scores : ℕ → ℕ → ℚ)
    (geometry : ℕ → ℕ → ℕ → ℚ) (minimumTrust : ℚ) (y : ℕ)
    (st : CollectState) (x : ℕ) : CollectState :=
  if scores y x < minimumTrust then st
  else
    match geometryData geometry y with
    | (angleData, xData0, xData1, xData2, xData3) =>
      match geometryCalculations cosf sinf angleData xData0 xData1 xData2 xData3 x y with
      | (startX, startY, endX, endY) =>
        (st.1 ++ [scores y x], st.2.1 ++ [(startX, startY, endX, endY)],
         some (startX, startY, endX, endY))

/-- The nested grid loop of generateTextBoundingBoxes (lines 138-146):
row-major over y in [0, lines), x in [0, columns). -/
def collectCandidates (cosf sinf : ℚ → ℚ) (lines : ℕ) (scores : ℕ → ℕ → ℚ)
    (geometry : ℕ → ℕ → ℕ → ℚ) (columns : ℕ) (minimumTrust : ℚ)
    (trust : List ℚ) (boxs : List Box) : CollectState :=
  (List.range lines).foldl
    (fun st y =>
      (List.range columns).foldl
        (cellStep cosf sinf scores geometry minimumTrust y) st)
    (trust, boxs, none)

/-- Intersection area of two boxes (zero when they do not overlap). -/
def interArea (a b : Box) : ℤ :=
  max 0 (min a.2.2.1 b.2.2.1 - max a.1 b.1) *
    max 0 (min a.2.2.2 b.2.2.2 - max a.2.1 b.2.1)

/-- Area of a box. -/
def boxArea (b : Box) : ℤ := (b.2.2.1 - b.1) * (b.2.2.2 - b.2.1)

/-- Overlap of a kept box with a remaining candidate box: intersection over
the candidate box area.  A zero-area candidate gives ratio 0 (division by
zero is 0 in ℚ), the policy the spec allows: a zero-area box overlaps
nothing. -/
def overlapRatio (kept cand : Box) : ℚ :=
  (interArea kept cand : ℚ) / (boxArea cand : ℚ)

/-- Modelled from the spec: stable sort of the scored candidates by
descending confidence, ties broken by original scan order (spec section
4.4, step 2).  Insertion sort: a candidate is placed after every
already-sorted candidate of greater or equal score. -/
def insertDesc (p : Box × ℚ) : List (Box × ℚ) → List (Box × ℚ)
  | [] => [p]
  | q :: rest => if q.2 ≤ p.2 then p :: q :: rest else q :: insertDesc p rest

/-- Modelled from the spec: sort by descending confidence, stable. -/
def sortDesc (cands : List (Box × ℚ)) : List (Box × ℚ) :=
  cands.foldr insertDesc []

/-- Modelled from the spec: the greedy keep loop of non-max suppression
(spec section 4.4, step 3): keep the highest-remaining-score box, remove
every remaining box whose overlap with it exceeds the suppression
threshold, repeat. -/
def nmsKeep (overlapThresh : ℚ) : List (Box × ℚ) → List Box
  | [] => []
  | kb :: rest =>
    kb.1 ::
      nmsKeep overlapThresh
        (rest.filter (fun c => decide (overlapRatio kb.1 c.1 ≤ overlapThresh)))
termination_by l => l.length
decreasing_by
  simp only [List.length_cons]
  exact Nat.lt_succ_of_le (List.length_filter_le _ _)

/-- Modelled from the spec: the source delegates suppression to
imutils.object_detection.non_max_suppression, whose code is not part of
this repository.  Following spec section 4.4: empty input gives empty
output; otherwise sort the (box, score) pairs by descending confidence
(stable) and greedily keep boxes, removing every remaining box whose
overlap with a kept box exceeds the threshold.  The overlap metric is
intersection-over-the-candidate-box-area, the choice the spec names as the
common one in this domain; the third-party default threshold is 0.3. -/
def non_max_suppression (boxs : List Box) (probs : List ℚ)
    (overlapThresh : ℚ) : List Box :=
  if boxs.isEmpty then []
  else nmsKeep overlapThresh (sortDesc (boxs.zip probs))

/-- generateTextBoundingBoxes (line 120 of tesseractUtils.py): run the grid
loop, then non-max suppression, and return the last assigned coordinates
together with the detections.  Returns none when the Python function
raises: when no cell clears minimumTrust the loop body never runs, startX
is unbound, and the return statement on line 152 raises
UnboundLocalError. -/
def generateTextBoundingBoxes (cosf sinf : ℚ → ℚ) (lines : ℕ)
    (scores : ℕ → ℕ → ℚ) (geometry : ℕ → ℕ → ℕ → ℚ) (columns : ℕ)
    (minimumTrust : ℚ) (trust : List ℚ) (boxs : List Box) :
    Option (Box × List Box) :=
  match collectCandidates cosf sinf lines scores geometry columns minimumTrust trust boxs with
  | (trustOut, boxsOut, olast) =>
    match olast with
    | none => none
    | some last => some (last, non_max_suppression boxsOut trustOut (3 / 10))

/-- Lines 177-180 of tesseractUtils.py: rescale one detected box back to
original-image scale, each coordinate multiplied by its axis ratio and
truncated to integer by int(). -/
def rescaleBox (d : Box) (proportionW proportionH : ℚ) : Box :=
  (pyInt ((d.1 : ℚ) * proportionW), pyInt ((d.2.1 : ℚ) * proportionH),
   pyInt ((d.2.2.1 : ℚ) * proportionW), pyInt ((d.2.2.2 : ℚ) * proportionH))

/-- One iteration of the loop at line 176 of tesseractUtils.py: rescale the
box, slice the region of interest out of the copy, and draw the green
rectangle on the bkpImg buffer. -/
def roiStep {α : Type} (imageFromAlter : Image α) (margin : ℤ)
    (proportionW proportionH : ℚ) (st : Canvas α × Option (Image α))
    (d : Box) : Canvas α × Option (Image α) :=
  match rescaleBox d proportionW proportionH with
  | (startX, startY, endX, endY) =>
    (cvRectangle st.1 (startX - margin, startY - margin)
        (endX + margin, endY + margin) (0, 255, 0) 2,
     some (pyCrop imageFromAlter (startY - margin) (endY + margin)
        (startX - margin) (endX + margin)))

/-- extractAndDrawROI (line 154 of tesseractUtils.py).  The four coordinate
parameters startX startY endX endY are immediately shadowed by the loop
variables, exactly as in the source.  imageFromAlter is a copy of bkpImg
taken before any drawing; crops are sliced from the copy while rectangles
are painted onto bkpImg itself.  The mutated bkpImg buffer is returned
explicitly alongside the resized region of interest.  Returns none when the
Python function raises: with no detections, regionOfInterest is unbound at
line 184 (UnboundLocalError), and cv2.resize raises on an empty crop. -/
def extractAndDrawROI {α : Type} (bkpImg : Canvas α) (detections : List Box)
    (proportionW proportionH : ℚ) ( startX startY endX endY : ℤ)
    (margin : ℤ) : Option (Canvas α × Resized α) :=
  let imageFromAlter := bkpImg.img
  match detections.foldl (roiStep imageFromAlter margin proportionW proportionH)
      (bkpImg, none) with
  | (_, none) => none
  | (bkp, some regionOfInterest) =>
    match cvResize regionOfInterest (3 / 2) (3 / 2) Interp.cubic with
    | none => none
    | some r => some (bkp, r)

/-- The outcomes of main (src/main.py) after detections are produced. -/
inductive MainResult (α : Type) where
  | warnNoDetections
  | warnEmptyRoi
  | recognizedText (roi : Resized α)

/-- main.py lines 25-32: return early with the no-detections warning when
the detection list is empty; otherwise extract the region of interest with
margin 5 and hand it to recognition (an empty region gives the empty-ROI
warning).  none models an exception escaping main. -/
def mainHandleDetections {α : Type} (backup : Canvas α)
    (startX startY endX endY : ℤ) (detections : List Box)
    (prop_w prop_h : ℚ) : Option (MainResult α) :=
  if detections.length = 0 then some MainResult.warnNoDetections
  else
    match extractAndDrawROI backup detections prop_w prop_h startX startY endX endY 5 with
    | none => none
    | some (_, roi) =>
      if roi.src.height * roi.src.width = 0 then some MainResult.warnEmptyRoi
      else some (MainResult.recognizedText roi)

/-- The clipping behaviour claim C2 describes, stated from the words of the
spec (section 4.5): clamp each slice endpoint of the expanded rectangle
into [0, axis length] and crop to that rectangle.  This definition follows
the spec, not the source; it is compared against pyCrop. -/
def clampIdx (n : ℕ) (i : ℤ) : ℕ := (min (max i 0) (n : ℤ)).toNat

/-- The crop the claim describes: the expanded rectangle clipped to
[0, width) x [0, height) before cropping.  Spec-side definition for
comparison with the source-side pyCrop. -/
def specClippedCrop {α : Type} (img : Image α) (y0 y1 x0 x1 : ℤ) : Image α :=
  let sy := clampIdx img.height y0
  let ey := clampIdx img.height y1
  let sx := clampIdx img.width x0
  let ex := clampIdx img.width x1
  ⟨ey - sy, ex - sx, fun i j => img.pix (sy + i) (sx + j)⟩

/-- The arguments of the cv2.rectangle call that the loop of
extractAndDrawROI issues for one detection (line 182). -/
def rectCallOf (d : Box) (proportionW proportionH : ℚ) (margin : ℤ) : RectCall :=
  match rescaleBox d proportionW proportionH with
  | (startX, startY, endX, endY) =>
    ⟨(startX - margin, startY - margin), (endX + margin, endY + margin),
     (0, 255, 0), 2⟩

/-- The region of interest the loop of extractAndDrawROI slices for one
detection (line 181). -/
def cropOf {α : Type} (img : Image α) (d : Box) (proportionW proportionH : ℚ)
    (margin : ℤ) : Image α :=
  match rescaleBox d proportionW proportionH with
  | (startX, startY, endX, endY) =>
    pyCrop img (startY - margin) (endY + margin) (startX - margin) (endX + margin)

/-- A 100 x 100 test image with constant pixels, for concrete scenarios. -/
def img100 : Image ℕ := ⟨100, 100, fun _ _ => 0⟩

/-- The test image as a buffer nothing has been drawn on. -/
def cv100 : Canvas ℕ := ⟨img100, []⟩

/-- The (box, score) pairs accumulated by the candidate collector of
generateTextBoundingBoxes when started, as main starts it, from empty
trust and boxs lists. -/
def candidatePairs (cosf sinf : ℚ → ℚ) (scores : ℕ → ℕ → ℚ)
    (geometry : ℕ → ℕ → ℕ → ℚ) (lines columns : ℕ) (minimumTrust : ℚ) :
    List (Box × ℚ) :=
  match collectCandidates cosf sinf lines scores geometry columns minimumTrust [] [] with
  | (trustOut, boxsOut, _) => boxsOut.zip trustOut

/-- The box computed at grid cell (y, x), as geometryCalculations receives
the planes from geometryData. -/
def boxAt (cosf sinf : ℚ → ℚ) (geometry : ℕ → ℕ → ℕ → ℚ) (y x : ℕ) : Box :=
  match geometryData geometry y with
  | (angleData, xData0, xData1, xData2, xData3) =>
    geometryCalculations cosf sinf angleData xData0 xData1 xData2 xData3 x y

/-- The grid cells whose score clears the threshold, in row-major scan
order. -/
def keptCells (scores : ℕ → ℕ → ℚ) (lines columns : ℕ) (minimumTrust : ℚ) :
    List (ℕ × ℕ) :=
  (List.range lines).flatMap (fun y =>
    ((List.range columns).filter
      (fun x => decide (¬ (scores y x < minimumTrust)))).map (fun x => (y, x)))

/-! ### Helper lemmas -/

theorem pySliceIdx_le (n : ℕ) (i : ℤ) : pySliceIdx n i ≤ n := by
  unfold pySliceIdx
  split <;> omega

theorem pySliceIdx_of_nonneg {i : ℤ} (n : ℕ) (h : 0 ≤ i) :
    pySliceIdx n i = clampIdx n i := by
  unfold pySliceIdx clampIdx
  split <;> omega

theorem pyInt_le_of_le {q : ℚ} {n : ℤ} (h : q ≤ (n : ℚ)) : pyInt q ≤ n := by
  unfold pyInt
  split
  · exact Int.ceil_le.mpr h
  · calc ⌊q⌋ ≤ ⌊(n : ℚ)⌋ := Int.floor_le_floor h
      _ = n := Int.floor_intCast n

/-! ### Claims about the box geometry calculation -/

/-- C5: for geometry planes whose angle at column x is 0 (where the
floating-point cosine is exactly 1 and the sine exactly 0),
geometryCalculations returns endX = offsetX + d_right, endY = offsetY +
d_bottom, startX = endX - (d_right + d_left), startY = endY -
(d_top + d_bottom), with offsetX = 4x, offsetY = 4y, every result truncated
toward zero. -/
theorem geometryCalculations_zero_angle (cosf sinf : ℚ → ℚ)
    (angleData xData0 xData1 xData2 xData3 : ℕ → ℚ) (x y : ℕ)
    (hang : angleData x = 0) (hcos : cosf 0 = 1) (hsin : sinf 0 = 0) :
    geometryCalculations cosf sinf angleData xData0 xData1 xData2 xData3 x y =
      (pyInt ((pyInt ((x : ℚ) * 4 + xData1 x) : ℚ) - (xData1 x + xData3 x)),
       pyInt ((pyInt ((y : ℚ) * 4 + xData2 x) : ℚ) - (xData0 x + xData2 x)),
       pyInt ((x : ℚ) * 4 + xData1 x),
       pyInt ((y : ℚ) * 4 + xData2 x)) := by
  simp only [geometryCalculations, hang, hcos, hsin, one_mul, zero_mul,
    add_zero, sub_zero]

/-- Witness for C5 at a concrete zero-angle fixture: x = 1, y = 2,
d_top = 1, d_right = 2, d_bottom = 3, d_left = 4 give the box
(0, 7, 6, 11). -/
theorem geometryCalculations_zero_angle_witness :
    (fun _ : ℕ => (0 : ℚ)) 1 = 0 ∧ (fun _ : ℚ => (1 : ℚ)) 0 = 1 ∧
    (fun _ : ℚ => (0 : ℚ)) 0 = 0 ∧
    geometryCalculations (fun _ => 1) (fun _ => 0) (fun _ => 0) (fun _ => 1)
        (fun _ => 2) (fun _ => 3) (fun _ => 4) 1 2 = (0, 7, 6, 11) := by
  refine ⟨rfl, rfl, rfl, ?_⟩
  rw [geometryCalculations_zero_angle (fun _ => 1) (fun _ => 0) (fun _ => 0)
    (fun _ => 1) (fun _ => 2) (fun _ => 3) (fun _ => 4) 1 2 rfl rfl rfl]
  norm_num [pyInt]

/-- C7 counterexample: for the distance plane value d_right = -2 (with
angle 0, whose cosine is 1 and sine 0) the box produced by
geometryCalculations has startX = 0 > endX = -2, so the claimed invariant
does not hold for all distance plane values. -/
theorem geometryCalculations_negative_distance_counterexample :
    ¬ ((geometryCalculations (fun _ => 1) (fun _ => 0) (fun _ => 0)
          (fun _ => 0) (fun _ => -2) (fun _ => 0) (fun _ => 0) 0 0).1 ≤
       (geometryCalculations (fun _ => 1) (fun _ => 0) (fun _ => 0)
          (fun _ => 0) (fun _ => -2) (fun _ => 0) (fun _ => 0) 0 0).2.2.1) := by
  norm_num [geometryCalculations, pyInt, Int.ceil_neg]

/-- C7 (amended): for every box produced by geometryCalculations from
planes whose four distance values at column x are nonnegative (as genuine
detector outputs are), and for all angle plane values, cosine/sine
implementations and grid indices, startX ≤ endX and startY ≤ endY. -/
theorem geometryCalculations_ordered (cosf sinf : ℚ → ℚ)
    (angleData xData0 xData1 xData2 xData3 : ℕ → ℚ) (x y : ℕ)
    (h0 : 0 ≤ xData0 x) (h1 : 0 ≤ xData1 x) (h2 : 0 ≤ xData2 x)
    (h3 : 0 ≤ xData3 x) :
    (geometryCalculations cosf sinf angleData xData0 xData1 xData2 xData3 x y).1 ≤
      (geometryCalculations cosf sinf angleData xData0 xData1 xData2 xData3 x y).2.2.1 ∧
    (geometryCalculations cosf sinf angleData xData0 xData1 xData2 xData3 x y).2.1 ≤
      (geometryCalculations cosf sinf angleData xData0 xData1 xData2 xData3 x y).2.2.2 := by
  simp only [geometryCalculations]
  constructor
  · exact pyInt_le_of_le (by linarith)
  · exact pyInt_le_of_le (by linarith)

/-- Witness for C7 (amended) at all-ones distance planes. -/
theorem geometryCalculations_ordered_witness :
    0 ≤ (fun _ : ℕ => (1 : ℚ)) 0 ∧
    ((geometryCalculations (fun _ => 5) (fun _ => 7) (fun _ => 0)
         (fun _ => 1) (fun _ => 1) (fun _ => 1) (fun _ => 1) 0 0).1 ≤
       (geometryCalculations (fun _ => 5) (fun _ => 7) (fun _ => 0)
         (fun _ => 1) (fun _ => 1) (fun _ => 1) (fun _ => 1) 0 0).2.2.1 ∧
     (geometryCalculations (fun _ => 5) (fun _ => 7) (fun _ => 0)
         (fun _ => 1) (fun _ => 1) (fun _ => 1) (fun _ => 1) 0 0).2.1 ≤
       (geometryCalculations (fun _ => 5) (fun _ => 7) (fun _ => 0)
         (fun _ => 1) (fun _ => 1) (fun _ => 1) (fun _ => 1) 0 0).2.2.2) :=
  ⟨by norm_num,
   geometryCalculations_ordered (fun _ => 5) (fun _ => 7) (fun _ => 0)
     (fun _ => 1) (fun _ => 1) (fun _ => 1) (fun _ => 1) 0 0
     (by norm_num) (by norm_num) (by norm_num) (by norm_num)⟩

/-- C8: rescaling multiplies each coordinate by its axis ratio and
truncates to integer; the box (10, 10, 20, 20) with ratios (2, 2) maps
exactly to (20, 20, 40, 40). -/
theorem rescaleBox_roundtrip :
    rescaleBox ((10 : ℤ), (10 : ℤ), (20 : ℤ), (20 : ℤ)) 2 2 = (20, 20, 40, 40) := by
  norm_num [rescaleBox, pyInt]

/-! ### Claims about generateTextBoundingBoxes -/

/-- C1 (the code as written): on the spec scenario of a 1 x 1 score grid
holding 0.95 with threshold 0.96, no cell clears the threshold, the loop
never assigns startX, and generateTextBoundingBoxes raises
UnboundLocalError at its return statement (modelled as none) instead of
returning an empty detection set. -/
theorem generateTextBoundingBoxes_raises_on_empty (cosf sinf : ℚ → ℚ)
    (geometry : ℕ → ℕ → ℕ → ℚ) :
    generateTextBoundingBoxes cosf sinf 1 (fun _ _ => 19 / 20) geometry 1
      (24 / 25) [] [] = none := by
  have h : ((19 : ℚ) / 20 < 24 / 25) := by norm_num
  simp [generateTextBoundingBoxes, collectCandidates, cellStep, h,
    show List.range 1 = [0] by decide, List.foldl_cons, List.foldl_nil]

/-- C10: extractAndDrawROI requires a non-empty detections sequence: on an
empty one the loop body never runs, regionOfInterest is never bound, and
the final upscale raises (none) instead of returning an empty result; and
main returns early with the no-detections warning on an empty detection
list, before ever calling extractAndDrawROI. -/
theorem extractAndDrawROI_needs_detections {α : Type} (backup : Canvas α)
    (pW pH : ℚ) (sX sY eX eY m : ℤ) :
    extractAndDrawROI backup [] pW pH sX sY eX eY m = none ∧
    mainHandleDetections backup sX sY eX eY [] pW pH =
      some MainResult.warnNoDetections := by
  constructor
  · simp [extractAndDrawROI]
  · simp [mainHandleDetections]

/-! ### Claims about cropping and the region of interest -/

/-- C2 counterexample: for the surviving box (0, 0, 10, 10) with unit
ratios and margin 5, the expanded rectangle starts at -5; the code does not
clamp it to 0, the numpy slice start -5 wraps to 95, the crop is empty
(height 0) where the clipped rectangle has height 15, and the call raises
on the empty crop instead of returning the clipped crop. -/
theorem extractAndDrawROI_no_clip_counterexample :
    (extractAndDrawROI cv100 [((0 : ℤ), (0 : ℤ), (10 : ℤ), (10 : ℤ))]
        1 1 0 0 0 0 5).isNone = true ∧
    (pyCrop img100 (0 - 5) (10 + 5) (0 - 5) (10 + 5)).height = 0 ∧
    (specClippedCrop img100 (0 - 5) (10 + 5) (0 - 5) (10 + 5)).height = 15 := by
  have hres : rescaleBox ((0 : ℤ), (0 : ℤ), (10 : ℤ), (10 : ℤ)) 1 1 =
      (0, 0, 10, 10) := by
    norm_num [rescaleBox, pyInt]
  refine ⟨?_, by decide, by decide⟩
  simp [extractAndDrawROI, roiStep, hres, cvRectangle, cvResize, cv100,
    img100, pyCrop, pySliceIdx]

/-- C2 (amended): the crop of extractAndDrawROI resolves its slice bounds
by Python semantics — each resolved bound lies in [0, axis length], so the
pixels the crop addresses are always inside the original image — but
negative expanded bounds wrap to the far end of the axis instead of being
clamped to 0; only when all four expanded bounds are nonnegative does the
crop equal the rectangle clipped to [0, width) x [0, height) that the claim
describes. -/
theorem pyCrop_inbounds_and_clips {α : Type} (img : Image α) (y0 y1 x0 x1 : ℤ) :
    (∀ i j, i < (pyCrop img y0 y1 x0 x1).height →
        j < (pyCrop img y0 y1 x0 x1).width →
        pySliceIdx img.height y0 + i < img.height ∧
        pySliceIdx img.width x0 + j < img.width) ∧
    (0 ≤ y0 → 0 ≤ y1 → 0 ≤ x0 → 0 ≤ x1 →
        pyCrop img y0 y1 x0 x1 = specClippedCrop img y0 y1 x0 x1) := by
  constructor
  · intro i j hi hj
    simp only [pyCrop] at hi hj
    have h1 := pySliceIdx_le img.height y1
    have h2 := pySliceIdx_le img.width x1
    omega
  · intro hy0 hy1 hx0 hx1
    simp only [pyCrop, specClippedCrop, pySliceIdx_of_nonneg _ hy0,
      pySliceIdx_of_nonneg _ hy1, pySliceIdx_of_nonneg _ hx0,
      pySliceIdx_of_nonneg _ hx1]

/-- Witness for C2 (amended): a nonnegative expanded rectangle on the test
image, where the crop is inside the image and equals the clipped crop. -/
theorem pyCrop_inbounds_and_clips_witness :
    (0 < (pyCrop img100 0 15 0 15).height ∧ 0 < (pyCrop img100 0 15 0 15).width ∧
      pySliceIdx img100.height 0 + 0 < img100.height ∧
      pySliceIdx img100.width 0 + 0 < img100.width) ∧
    ((0 : ℤ) ≤ 0 ∧ (0 : ℤ) ≤ 15 ∧
      pyCrop img100 0 15 0 15 = specClippedCrop img100 0 15 0 15) :=
  ⟨⟨by decide, by decide,
    ((pyCrop_inbounds_and_clips img100 0 15 0 15).1 0 0 (by decide) (by decide)).1,
    ((pyCrop_inbounds_and_clips img100 0 15 0 15).1 0 0 (by decide) (by decide)).2⟩,
   ⟨by decide, by decide,
    (pyCrop_inbounds_and_clips img100 0 15 0 15).2 (by decide) (by decide)
      (by decide) (by decide)⟩⟩

/-! ### The behaviour of the extraction loop -/

theorem roiStep_eq {α : Type} (img : Image α) (m : ℤ) (pW pH : ℚ)
    (st : Canvas α × Option (Image α)) (d : Box) :
    roiStep img m pW pH st d =
      (⟨st.1.img, st.1.drawnRects ++ [rectCallOf d pW pH m]⟩,
       some (cropOf img d pW pH m)) := by
  rcases h : rescaleBox d pW pH with ⟨a, b, c, e⟩
  simp [roiStep, rectCallOf, cropOf, cvRectangle, h]

theorem roiFold_canvas {α : Type} (img : Image α) (m : ℤ) (pW pH : ℚ) :
    ∀ (ds : List Box) (st : Canvas α × Option (Image α)),
      (ds.foldl (roiStep img m pW pH) st).1 =
        ⟨st.1.img, st.1.drawnRects ++ ds.map (fun d => rectCallOf d pW pH m)⟩ := by
  intro ds
  induction ds with
  | nil => intro st; simp
  | cons d ds ih =>
    intro st
    rw [List.foldl_cons, roiStep_eq, ih]
    simp

theorem roiFold_last {α : Type} (img : Image α) (m : ℤ) (pW pH : ℚ)
    (ds : List Box) (d : Box) (st : Canvas α × Option (Image α)) :
    ((ds ++ [d]).foldl (roiStep img m pW pH) st).2 =
      some (cropOf img d pW pH m) := by
  rw [List.foldl_append, List.foldl_cons, List.foldl_nil, roiStep_eq]

/-- C3 (amended): with a non-empty detection list, extractAndDrawROI keeps
only the crop of the last box processed — every earlier crop is
overwritten — and returns it upscaled by 1.5 in both axes with cubic
interpolation, provided that last crop is nonempty (an empty last crop
makes the final cv2.resize raise instead). -/
theorem extractAndDrawROI_keeps_last_crop {α : Type} (bkpImg : Canvas α)
    (ds : List Box) (d : Box) (pW pH : ℚ) (sX sY eX eY m : ℤ) :
    (extractAndDrawROI bkpImg (ds ++ [d]) pW pH sX sY eX eY m).map
        (fun r => r.2) =
      cvResize (cropOf bkpImg.img d pW pH m) (3 / 2) (3 / 2) Interp.cubic := by
  have h2 := roiFold_last bkpImg.img m pW pH ds d (bkpImg, none)
  simp only [extractAndDrawROI]
  rcases hfold : (ds ++ [d]).foldl (roiStep bkpImg.img m pW pH) (bkpImg, none)
    with ⟨c, o⟩
  rw [hfold] at h2
  simp only at h2
  subst h2
  cases hr : cvResize (cropOf bkpImg.img d pW pH m) (3 / 2) (3 / 2) Interp.cubic <;>
    simp [hr]

/-- C3 counterexample: two boxes survive, but when the last box's expanded
crop is empty (the box (0, 0, 10, 10) at the image corner, whose expanded
slice start -5 wraps), extractAndDrawROI raises on the final resize instead
of returning the last box's crop. -/
theorem extractAndDrawROI_last_crop_counterexample :
    (extractAndDrawROI cv100
        [((20 : ℤ), (20 : ℤ), (30 : ℤ), (30 : ℤ)),
         ((0 : ℤ), (0 : ℤ), (10 : ℤ), (10 : ℤ))] 1 1 0 0 0 0 5).isNone = true := by
  have hres : rescaleBox ((0 : ℤ), (0 : ℤ), (10 : ℤ), (10 : ℤ)) 1 1 =
      (0, 0, 10, 10) := by
    norm_num [rescaleBox, pyInt]
  have hres2 : rescaleBox ((20 : ℤ), (20 : ℤ), (30 : ℤ), (30 : ℤ)) 1 1 =
      (20, 20, 30, 30) := by
    norm_num [rescaleBox, pyInt]
  simp [extractAndDrawROI, roiStep, hres, hres2, cvRectangle, cvResize,
    cv100, img100, pyCrop, pySliceIdx]

/-- C9 counterexample: extractAndDrawROI does not leave bkpImg unchanged:
for one surviving box it returns the buffer with a green thickness-2
rectangle painted on it, while the buffer it was given had nothing drawn
on it. -/
theorem extractAndDrawROI_mutation_counterexample :
    (extractAndDrawROI cv100 [((20 : ℤ), (20 : ℤ), (30 : ℤ), (30 : ℤ))]
        1 1 0 0 0 0 5).map (fun r => r.1.drawnRects) =
      some [⟨(15, 15), (35, 35), (0, 255, 0), 2⟩] ∧
    cv100.drawnRects = [] := by
  have hres : rescaleBox ((20 : ℤ), (20 : ℤ), (30 : ℤ), (30 : ℤ)) 1 1 =
      (20, 20, 30, 30) := by
    norm_num [rescaleBox, pyInt]
  constructor
  · simp [extractAndDrawROI, roiStep, hres, rectCallOf, cropOf, cvRectangle,
      cvResize, cv100, img100, pyCrop, pySliceIdx]
  · rfl

/-- C9 (amended): extractAndDrawROI mutates its input buffer, painting one
green rectangle per detection onto bkpImg; the pixel data it crops from is
the private copy taken before any drawing, so the returned region of
interest is the pristine crop of the last box, unaffected by the drawing
(stated for a nonempty last crop, where the call returns normally). -/
theorem extractAndDrawROI_draws_on_input {α : Type} (bkpImg : Canvas α)
    (ds : List Box) (d : Box) (pW pH : ℚ) (sX sY eX eY m : ℤ)
    (hh : (cropOf bkpImg.img d pW pH m).height ≠ 0)
    (hw : (cropOf bkpImg.img d pW pH m).width ≠ 0) :
    extractAndDrawROI bkpImg (ds ++ [d]) pW pH sX sY eX eY m =
      some (⟨bkpImg.img, bkpImg.drawnRects ++
              (ds ++ [d]).map (fun b => rectCallOf b pW pH m)⟩,
            ⟨cropOf bkpImg.img d pW pH m, 3 / 2, 3 / 2, Interp.cubic⟩) := by
  have h2 := roiFold_last bkpImg.img m pW pH ds d (bkpImg, none)
  have h1 := roiFold_canvas bkpImg.img m pW pH (ds ++ [d]) (bkpImg, none)
  simp only [extractAndDrawROI]
  rcases hfold : (ds ++ [d]).foldl (roiStep bkpImg.img m pW pH) (bkpImg, none)
    with ⟨c, o⟩
  rw [hfold] at h2 h1
  simp only at h2 h1
  subst h2
  subst h1
  simp [cvResize, hh, hw]

/-- Witness for C9 (amended): a concrete box away from the image edge,
whose crop is nonempty. -/
theorem extractAndDrawROI_draws_on_input_witness :
    (cropOf cv100.img ((20 : ℤ), (20 : ℤ), (30 : ℤ), (30 : ℤ)) 1 1 5).height ≠ 0 ∧
    extractAndDrawROI cv100 ([] ++ [((20 : ℤ), (20 : ℤ), (30 : ℤ), (30 : ℤ))])
        1 1 0 0 0 0 5 =
      some (⟨cv100.img, cv100.drawnRects ++
              ([] ++ [((20 : ℤ), (20 : ℤ), (30 : ℤ), (30 : ℤ))]).map
                (fun b => rectCallOf b 1 1 5)⟩,
            ⟨cropOf cv100.img ((20 : ℤ), (20 : ℤ), (30 : ℤ), (30 : ℤ)) 1 1 5,
             3 / 2, 3 / 2, Interp.cubic⟩) := by
  have hres : rescaleBox ((20 : ℤ), (20 : ℤ), (30 : ℤ), (30 : ℤ)) 1 1 =
      (20, 20, 30, 30) := by
    norm_num [rescaleBox, pyInt]
  have hh : (cropOf cv100.img ((20 : ℤ), (20 : ℤ), (30 : ℤ), (30 : ℤ)) 1 1 5).height ≠ 0 := by
    simp [cropOf, hres, cv100, img100, pyCrop, pySliceIdx]
  have hw : (cropOf cv100.img ((20 : ℤ), (20 : ℤ), (30 : ℤ), (30 : ℤ)) 1 1 5).width ≠ 0 := by
    simp [cropOf, hres, cv100, img100, pyCrop, pySliceIdx]
  exact ⟨hh, extractAndDrawROI_draws_on_input cv100 []
    ((20 : ℤ), (20 : ℤ), (30 : ℤ), (30 : ℤ)) 1 1 0 0 0 0 5 hh hw⟩

/-! ### Non-max suppression -/

theorem insertDesc_mem {p q : Box × ℚ} {l : List (Box × ℚ)}
    (h : q ∈ insertDesc p l) : q = p ∨ q ∈ l := by
  induction l with
  | nil =>
    simp only [insertDesc, List.mem_singleton] at h
    exact Or.inl h
  | cons a l ih =>
    simp only [insertDesc] at h
    split at h
    · rcases List.mem_cons.mp h with h | h
      · exact Or.inl h
      · exact Or.inr h
    · rcases List.mem_cons.mp h with h | h
      · exact Or.inr (by simp [h])
      · rcases ih h with h | h
        · exact Or.inl h
        · exact Or.inr (List.mem_cons_of_mem _ h)

theorem sortDesc_mem {q : Box × ℚ} :
    ∀ {l : List (Box × ℚ)}, q ∈ sortDesc l → q ∈ l := by
  intro l
  induction l with
  | nil =>
    intro h
    simp only [sortDesc, List.foldr_nil] at h
    exact absurd h (List.not_mem_nil q)
  | cons a l ih =>
    intro h
    have h' : q ∈ insertDesc a (sortDesc l) := h
    rcases insertDesc_mem h' with h | h
    · simp [h]
    · exact List.mem_cons_of_mem _ (ih h)

theorem nmsKeep_subset_fuel (t : ℚ) :
    ∀ (n : ℕ) (l : List (Box × ℚ)), l.length ≤ n →
      ∀ b ∈ nmsKeep t l, ∃ p ∈ l, p.1 = b := by
  intro n
  induction n with
  | zero =>
    intro l hl b hb
    have hnil : l = [] := List.length_eq_zero.mp (Nat.le_zero.mp hl)
    subst hnil
    simp [nmsKeep] at hb
  | succ n ih =>
    intro l hl b hb
    match l with
    | [] => simp [nmsKeep] at hb
    | kb :: rest =>
      rw [nmsKeep] at hb
      rcases List.mem_cons.mp hb with h | h
      · exact ⟨kb, List.mem_cons_self kb rest, h.symm⟩
      · have hlen : (rest.filter fun c => decide (overlapRatio kb.1 c.1 ≤ t)).length ≤ n :=
          le_trans (List.length_filter_le _ _) (Nat.le_of_succ_le_succ hl)
        obtain ⟨p, hp, hpb⟩ := ih _ hlen b h
        exact ⟨p, List.mem_cons_of_mem kb (List.mem_of_mem_filter hp), hpb⟩

theorem nmsKeep_pairwise_fuel (t : ℚ) :
    ∀ (n : ℕ) (l : List (Box × ℚ)), l.length ≤ n →
      (nmsKeep t l).Pairwise (fun b c => overlapRatio b c ≤ t) := by
  intro n
  induction n with
  | zero =>
    intro l hl
    have hnil : l = [] := List.length_eq_zero.mp (Nat.le_zero.mp hl)
    subst hnil
    simp [nmsKeep]
  | succ n ih =>
    intro l hl
    match l with
    | [] => simp [nmsKeep]
    | kb :: rest =>
      rw [nmsKeep]
      have hlen : (rest.filter fun c => decide (overlapRatio kb.1 c.1 ≤ t)).length ≤ n :=
        le_trans (List.length_filter_le _ _) (Nat.le_of_succ_le_succ hl)
      refine List.Pairwise.cons ?_ (ih _ hlen)
      intro c hc
      obtain ⟨p, hp, hpc⟩ := nmsKeep_subset_fuel t n _ hlen c hc
      have hmem := List.mem_filter.mp hp
      rw [← hpc]
      exact of_decide_eq_true hmem.2

/-- C4 (amended): the suppression output is a subset of its input boxes (no
box fabricated), and along the output in keeping order every later box has
overlap ratio (intersection over its own area) at most — not strictly
below — the suppression threshold with each box kept before it. -/
theorem nms_subset_and_pairwise (boxs : List Box) (probs : List ℚ) (t : ℚ) :
    (∀ b ∈ non_max_suppression boxs probs t, b ∈ boxs) ∧
    (non_max_suppression boxs probs t).Pairwise
      (fun b c => overlapRatio b c ≤ t) := by
  constructor
  · intro b hb
    unfold non_max_suppression at hb
    split at hb
    · simp at hb
    · obtain ⟨p, hp, hpb⟩ :=
        nmsKeep_subset_fuel t (sortDesc (boxs.zip probs)).length _ le_rfl b hb
      have hmem : p ∈ boxs.zip probs := sortDesc_mem hp
      rcases p with ⟨pb, ps⟩
      rw [← hpb]
      exact (List.of_mem_zip hmem).1
  · unfold non_max_suppression
    split
    · simp
    · exact nmsKeep_pairwise_fuel t _ _ le_rfl

/-- C4 counterexample: with threshold 0.3, the higher-scored box (0,0,1,1)
is kept first and the box (0,0,10,10), whose own-area overlap with it is
only 1/100, survives; both are in the output, yet the overlap ratio of the
pair taken as intersection over the smaller box's area is 1, which is not
strictly below the threshold — the pairwise strict bound claimed does not
hold. -/
theorem nms_pairwise_strict_counterexample :
    non_max_suppression
        [((0 : ℤ), (0 : ℤ), (1 : ℤ), (1 : ℤ)),
         ((0 : ℤ), (0 : ℤ), (10 : ℤ), (10 : ℤ))] [9 / 10, 8 / 10] (3 / 10) =
      [((0 : ℤ), (0 : ℤ), (1 : ℤ), (1 : ℤ)),
       ((0 : ℤ), (0 : ℤ), (10 : ℤ), (10 : ℤ))] ∧
    ¬ overlapRatio ((0 : ℤ), (0 : ℤ), (10 : ℤ), (10 : ℤ))
        ((0 : ℤ), (0 : ℤ), (1 : ℤ), (1 : ℤ)) < 3 / 10 := by
  constructor
  · norm_num [non_max_suppression, sortDesc, insertDesc, nmsKeep,
      overlapRatio, interArea, boxArea, List.zip, List.zipWith, List.filter]
  · norm_num [overlapRatio, interArea, boxArea]

/-- Witness for C4 (amended): the first output box of the concrete run is
one of the input boxes. -/
theorem nms_subset_and_pairwise_witness :
    ((0 : ℤ), (0 : ℤ), (1 : ℤ), (1 : ℤ)) ∈
      ([((0 : ℤ), (0 : ℤ), (1 : ℤ), (1 : ℤ)),
        ((0 : ℤ), (0 : ℤ), (10 : ℤ), (10 : ℤ))] : List Box) :=
  (nms_subset_and_pairwise
      [((0 : ℤ), (0 : ℤ), (1 : ℤ), (1 : ℤ)),
       ((0 : ℤ), (0 : ℤ), (10 : ℤ), (10 : ℤ))] [9 / 10, 8 / 10] (3 / 10)).1 _
    (by norm_num [non_max_suppression, sortDesc, insertDesc, nmsKeep,
      overlapRatio, interArea, boxArea, List.zip, List.zipWith, List.filter])

/-! ### Monotonicity of confidence filtering -/

theorem cellStep_not_skip (cosf sinf : ℚ → ℚ) (scores : ℕ → ℕ → ℚ)
    (geometry : ℕ → ℕ → ℕ → ℚ) (t : ℚ) (y x : ℕ) (st : CollectState)
    (h : ¬ scores y x < t) :
    cellStep cosf sinf scores geometry t y st x =
      (st.1 ++ [scores y x], st.2.1 ++ [boxAt cosf sinf geometry y x],
       some (boxAt cosf sinf geometry y x)) := by
  rcases hg : geometryData geometry y with ⟨a, d0, d1, d2, d3⟩
  rcases hc : geometryCalculations cosf sinf a d0 d1 d2 d3 x y with ⟨p, q, r, s⟩
  simp [cellStep, h, hg, hc, boxAt]

theorem cellFold_spec (cosf sinf : ℚ → ℚ) (scores : ℕ → ℕ → ℚ)
    (geometry : ℕ → ℕ → ℕ → ℚ) (t : ℚ) (y : ℕ) :
    ∀ (xs : List ℕ) (st : CollectState),
      (xs.foldl (cellStep cosf sinf scores geometry t y) st).1 =
        st.1 ++ ((xs.filter (fun x => decide (¬ (scores y x < t)))).map
          (fun x => scores y x)) ∧
      (xs.foldl (cellStep cosf sinf scores geometry t y) st).2.1 =
        st.2.1 ++ ((xs.filter (fun x => decide (¬ (scores y x < t)))).map
          (boxAt cosf sinf geometry y)) := by
  intro xs
  induction xs with
  | nil => intro st; simp
  | cons x xs ih =>
    intro st
    rw [List.foldl_cons]
    by_cases h : scores y x < t
    · have hskip : cellStep cosf sinf scores geometry t y st x = st := by
        simp [cellStep, h]
      have hfilter : (List.filter (fun x => decide (¬ (scores y x < t))) (x :: xs)) =
          List.filter (fun x => decide (¬ (scores y x < t))) xs := by
        simp [List.filter_cons, h]
      rw [hskip, hfilter]
      exact ih st
    · have hfilter : (List.filter (fun x => decide (¬ (scores y x < t))) (x :: xs)) =
          x :: List.filter (fun x => decide (¬ (scores y x < t))) xs := by
        simp [List.filter_cons, h]
      rw [cellStep_not_skip cosf sinf scores geometry t y x st h, hfilter]
      rcases ih (st.1 ++ [scores y x], st.2.1 ++ [boxAt cosf sinf geometry y x],
        some (boxAt cosf sinf geometry y x)) with ⟨ih1, ih2⟩
      constructor
      · rw [ih1]; simp
      · rw [ih2]; simp

theorem collectFold_spec (cosf sinf : ℚ → ℚ) (scores : ℕ → ℕ → ℚ)
    (geometry : ℕ → ℕ → ℕ → ℚ) (t : ℚ) (columns : ℕ) :
    ∀ (ys : List ℕ) (st : CollectState),
      (ys.foldl (fun st y =>
        (List.range columns).foldl (cellStep cosf sinf scores geometry t y) st) st).1 =
        st.1 ++ ((ys.flatMap (fun y =>
          ((List.range columns).filter (fun x => decide (¬ (scores y x < t)))).map
            (fun x => (y, x)))).map (fun p => scores p.1 p.2)) ∧
      (ys.foldl (fun st y =>
        (List.range columns).foldl (cellStep cosf sinf scores geometry t y) st) st).2.1 =
        st.2.1 ++ ((ys.flatMap (fun y =>
          ((List.range columns).filter (fun x => decide (¬ (scores y x < t)))).map
            (fun x => (y, x)))).map (fun p => boxAt cosf sinf geometry p.1 p.2)) := by
  intro ys
  induction ys with
  | nil => intro st; simp
  | cons y ys ih =>
    intro st
    rw [List.foldl_cons]
    rcases cellFold_spec cosf sinf scores geometry t y (List.range columns) st
      with ⟨h1, h2⟩
    rcases ih ((List.range columns).foldl (cellStep cosf sinf scores geometry t y) st)
      with ⟨ih1, ih2⟩
    constructor
    · rw [ih1, h1]
      simp [List.map_map, Function.comp_def]
    · rw [ih2, h2]
      simp [List.map_map, Function.comp_def]

theorem candidatePairs_eq (cosf sinf : ℚ → ℚ) (scores : ℕ → ℕ → ℚ)
    (geometry : ℕ → ℕ → ℕ → ℚ) (lines columns : ℕ) (t : ℚ) :
    candidatePairs cosf sinf scores geometry lines columns t =
      (keptCells scores lines columns t).map
        (fun p => (boxAt cosf sinf geometry p.1 p.2, scores p.1 p.2)) := by
  unfold candidatePairs collectCandidates keptCells
  rcases collectFold_spec cosf sinf scores geometry t columns (List.range lines)
    ([], [], none) with ⟨h1, h2⟩
  rcases hfold : List.foldl (fun st y =>
      List.foldl (cellStep cosf sinf scores geometry t y) st (List.range columns))
      ([], [], none) (List.range lines) with ⟨tr, bx, ol⟩
  rw [hfold] at h1 h2
  simp only [List.nil_append] at h1 h2
  subst h1
  subst h2
  simp [List.zip_map']

/-- C6: for thresholds t1 < t2 over the same score and geometry maps, every
(box, score) candidate the collector produces with threshold t2 is also
produced with threshold t1: the candidate set of the lower threshold is a
superset of that of the higher threshold. -/
theorem candidatePairs_superset (cosf sinf : ℚ → ℚ) (scores : ℕ → ℕ → ℚ)
    (geometry : ℕ → ℕ → ℕ → ℚ) (lines columns : ℕ) (t1 t2 : ℚ)
    (h12 : t1 < t2) (p : Box × ℚ)
    (hp : p ∈ candidatePairs cosf sinf scores geometry lines columns t2) :
    p ∈ candidatePairs cosf sinf scores geometry lines columns t1 := by
  rw [candidatePairs_eq] at hp ⊢
  obtain ⟨c, hc, rfl⟩ := List.mem_map.mp hp
  refine List.mem_map.mpr ⟨c, ?_, rfl⟩
  unfold keptCells at hc ⊢
  obtain ⟨y, hy, hx⟩ := List.mem_flatMap.mp hc
  refine List.mem_flatMap.mpr ⟨y, hy, ?_⟩
  obtain ⟨x, hxf, hxc⟩ := List.mem_map.mp hx
  refine List.mem_map.mpr ⟨x, ?_, hxc⟩
  rcases List.mem_filter.mp hxf with ⟨hxr, hxd⟩
  refine List.mem_filter.mpr ⟨hxr, ?_⟩
  have h2 := of_decide_eq_true hxd
  refine decide_eq_true ?_
  intro hlt
  exact h2 (lt_of_lt_of_le hlt (le_of_lt h12))

/-- Witness for C6: a single cell of score 1 is kept both at threshold 1
and at the lower threshold 0. -/
theorem candidatePairs_superset_witness :
    (0 : ℚ) < 1 ∧
    (((0 : ℤ), (0 : ℤ), (0 : ℤ), (0 : ℤ)), (1 : ℚ)) ∈
      candidatePairs (fun _ => 1) (fun _ => 0) (fun _ _ => 1) (fun _ _ _ => 0)
        1 1 0 := by
  have hmem : (((0 : ℤ), (0 : ℤ), (0 : ℤ), (0 : ℤ)), (1 : ℚ)) ∈
      candidatePairs (fun _ => 1) (fun _ => 0) (fun _ _ => 1) (fun _ _ _ => 0)
        1 1 1 := by
    norm_num [candidatePairs, collectCandidates, cellStep, geometryData,
      geometryCalculations, pyInt, show List.range 1 = [0] by decide,
      List.foldl_cons, List.foldl_nil]
  exact ⟨by norm_num,
    candidatePairs_superset (fun _ => 1) (fun _ => 0) (fun _ _ => 1)
      (fun _ _ _ => 0) 1 1 0 1 (by norm_num) _ hmem⟩

end PyOCR
